import Mathlib

/-!
Shallow embedding of src/src/main/cpp/I2cNative.c from the
layer-android-i2c-library repository.

Hardware interaction is abstracted by oracles: a bus oracle maps the index
of the successive low-level kernel calls (ioctl / SMBus transfers) made by a
function to the result the kernel would return for that call.  Every embedded
operation returns, next to its C return value, the list of hardware calls it
issued (its trace), so that statements about "no hardware access" and about
call ordering become statements about that trace.  Machine integers are
modelled as Int/Nat with explicit masking (% 256, % 128, % 65536) exactly
where the C code masks.
-/

namespace I2cNative

/-- SMBus constants from linux/i2c.h, as used by the C file. -/
def I2C_SMBUS_READ : Nat := 1

def I2C_SMBUS_WRITE : Nat := 0

def I2C_SMBUS_QUICK : Nat := 0

def I2C_SMBUS_BYTE : Nat := 1

def I2C_SMBUS_BYTE_DATA : Nat := 2

def I2C_SMBUS_WORD_DATA : Nat := 3

def I2C_SMBUS_I2C_BLOCK_DATA : Nat := 8

/-- A hardware call issued by the native layer: an I2C_SLAVE address switch,
an SMBus transfer (rw, command, size), the I2C_RECOVER ioctl, the I2C_FUNCS
ioctl, or a microsecond sleep. -/
inductive BusEv where
  | slave (addr : Nat)
  | smbus (rw : Nat) (command : Nat) (size : Nat)
  | ioctlRecover
  | ioctlFuncs
  | sleepUs (us : Nat)
deriving DecidableEq

/-- Returns true exactly on an I2C_SLAVE address-switch event. -/
def BusEv.isSlave : BusEv → Bool
  | .slave _ => true
  | _ => false

/-- A bus oracle on which every low-level call succeeds with result 0. -/
def zeroBus : Nat → Int := fun _ => 0

/-- A bus oracle on which every low-level call fails with result -1. -/
def failBus : Nat → Int := fun _ => -1

/-- A block-read oracle on which every chunk transfer fails. -/
def noneBus : Nat → Option Nat := fun _ => none

/-! ## Rate limiter (lines 15-61 of I2cNative.c) -/

/-- Model of struct timespec. -/
structure Timespec where
  tv_sec : Int
  tv_nsec : Int
deriving DecidableEq

/-- MIN_I2C_INTERVAL_NS from the C file: 250 microseconds in nanoseconds. -/
def MIN_I2C_INTERVAL_NS : Int := 250000

/-- Elapsed nanoseconds between the recorded timestamp and now, computed as in
i2c_rate_limit. -/
def elapsedNs (last now : Timespec) : Int :=
  (now.tv_sec - last.tv_sec) * 1000000000 + (now.tv_nsec - last.tv_nsec)

/-- The sleep duration (ns) requested by i2c_rate_limit given the recorded
timestamp of the last operation and the clock reading taken at entry.  The
all-zero timestamp is the "never ran" sentinel and causes no sleep. -/
def rateLimitSleep (last now : Timespec) : Int :=
  if last.tv_sec ≠ 0 ∨ last.tv_nsec ≠ 0 then
    if elapsedNs last now < MIN_I2C_INTERVAL_NS then
      MIN_I2C_INTERVAL_NS - elapsedNs last now
    else 0
  else 0

/-- Model of i2c_post_operation: the shared timestamp becomes the clock
reading taken after the transaction completed. -/
def i2cPostOperation (completion : Timespec) : Timespec := completion

/-- Timing behaviour of i2c_smbus_access: given the recorded timestamp, the
clock reading at entry and the clock reading at completion, it returns the
requested pre-transaction sleep and the new recorded timestamp. -/
def smbusAccessTiming (last start completion : Timespec) : Int × Timespec :=
  (rateLimitSleep last start, i2cPostOperation completion)

/-! ## Primitive dispatch operations (lines 105-196) -/

/-- Java_com_layer_i2c_I2cNative_writeByte: masks the register and the byte to
8 bits and issues one SMBus BYTE_DATA write through i2c_smbus_write_byte_data.
There is no handle check and no address switch. -/
def writeByte (bus : Nat → Int) (fd address b : Int) : Int × List BusEv :=
  (bus 0, [BusEv.smbus I2C_SMBUS_WRITE ((address % 256).toNat) I2C_SMBUS_BYTE_DATA])

/-- Java_com_layer_i2c_I2cNative_writeWord: masks the register to 8 bits and
the value to 16 bits and issues one SMBus WORD_DATA write. -/
def writeWord (bus : Nat → Int) (fd address word : Int) : Int × List BusEv :=
  (bus 0, [BusEv.smbus I2C_SMBUS_WRITE ((address % 256).toNat) I2C_SMBUS_WORD_DATA])

/-- Java_com_layer_i2c_I2cNative_readWord: issues one SMBus WORD_DATA read;
on a nonzero access result it returns -1, otherwise the driver-delivered word
masked to 16 bits.  The word the driver would deliver is the oracle argument. -/
def readWord (bus : Nat → Int) (word : Nat) (fd address : Int) : Int × List BusEv :=
  if bus 0 ≠ 0 then
    (-1, [BusEv.smbus I2C_SMBUS_READ ((address % 256).toNat) I2C_SMBUS_WORD_DATA])
  else
    (((word % 65536 : Nat) : Int),
      [BusEv.smbus I2C_SMBUS_READ ((address % 256).toNat) I2C_SMBUS_WORD_DATA])

/-! ## Device addressing (lines 63-76) -/

/-- switch_i2c_device: rejects a negative descriptor with -1 and no hardware
call; otherwise issues one I2C_SLAVE ioctl and returns its result. -/
def switch_i2c_device (bus : Nat → Int) (fd : Int) (deviceAddress : Nat) :
    Int × List BusEv :=
  if fd < 0 then (-1, [])
  else (bus 0, [BusEv.slave deviceAddress])

/-! ## Presence probes and bus scanning (lines 295-375) -/

/-- i2c_smbus_quick_write: switches the device address first (through
switch_i2c_device, so a negative descriptor aborts with no hardware call and a
failed switch aborts after the I2C_SLAVE ioctl), then issues an SMBus QUICK
write.  Returns the result, the next oracle index, and the trace. -/
def i2c_smbus_quick_write (bus : Nat → Int) (i : Nat) (fd : Int)
    (deviceAddress : Nat) : Int × Nat × List BusEv :=
  if fd < 0 then (-1, i, [])
  else if bus i < 0 then (-1, i + 1, [BusEv.slave deviceAddress])
  else (bus (i + 1), i + 2,
    [BusEv.slave deviceAddress, BusEv.smbus I2C_SMBUS_WRITE 0 I2C_SMBUS_QUICK])

/-- i2c_smbus_read_byte_probe: switches the device address first, then issues
an SMBus BYTE read. -/
def i2c_smbus_read_byte_probe (bus : Nat → Int) (i : Nat) (fd : Int)
    (deviceAddress : Nat) : Int × Nat × List BusEv :=
  if fd < 0 then (-1, i, [])
  else if bus i < 0 then (-1, i + 1, [BusEv.slave deviceAddress])
  else (bus (i + 1), i + 2,
    [BusEv.slave deviceAddress, BusEv.smbus I2C_SMBUS_READ 0 I2C_SMBUS_BYTE])

/-- Java_com_layer_i2c_I2cNative_scanAddress: masks the address to its low
7 bits (devAddr = deviceAddress AND 0x7F), returns 0 with no hardware call
when the masked address is outside [0x08, 0x77] (the second range check in
the C file is redundant and kept here), otherwise tries the quick-write probe
and, when that does not return 0, the read-byte probe; 1 when either probe
succeeds, 0 otherwise. -/
def scanAddress (bus : Nat → Int) (fd deviceAddress : Int) : Int × List BusEv :=
  let devAddr : Nat := (deviceAddress % 128).toNat
  if devAddr < 8 ∨ 119 < devAddr then (0, [])
  else if devAddr ≤ 7 ∨ 120 ≤ devAddr then (0, [])
  else
    let q := i2c_smbus_quick_write bus 0 fd devAddr
    if q.1 = 0 then (1, q.2.2)
    else
      let p := i2c_smbus_read_byte_probe bus q.2.1 fd devAddr
      if 0 ≤ p.1 then (1, q.2.2 ++ p.2.2)
      else (0, q.2.2 ++ p.2.2)

/-! ## Block reads (lines 78-103 and 198-283) -/

/-- The chunk size requested by the loop of readBlockData: min(32, remaining),
written as in the C conditional. -/
def requestSize (rem : Nat) : Nat := if rem > 32 then 32 else rem

/-- The cap applied by i2c_smbus_read_i2c_block_data: lengths above 31 are
reduced to 31 so that the I2C_SMBUS_I2C_BLOCK_BROKEN 32-byte mode is never
used. -/
def cappedSize (len : Nat) : Nat := if len > 31 then 31 else len

/-- The loop of Java_com_layer_i2c_I2cNative_readBlockData.  The oracle maps
the chunk index to none (the SMBus access failed, read_i2c_block_data returns
-1) or to some n (the driver reported n bytes).  Each iteration requests
requestSize bytes, which i2c_smbus_read_i2c_block_data caps with cappedSize so
that I2C_SMBUS_I2C_BLOCK_DATA is always used.  The trace records each issued
chunk as (command register, capped request size).  A failed or empty chunk
with nothing read so far yields -1; after at least one successful chunk the
loop breaks and the total is returned. -/
def rbLoop (bus : Nat → Option Nat) (k reg rem total : Nat) :
    Int × List (Nat × Nat) :=
  if h : rem = 0 then ((total : Int), [])
  else
    let c := cappedSize (requestSize rem)
    match bus k with
    | none => (if total = 0 then (-1 : Int) else (total : Int), [(reg, c)])
    | some n =>
      if hn : n = 0 then
        (if total = 0 then (-1 : Int) else (total : Int), [(reg, c)])
      else
        let r := rbLoop bus (k + 1) ((reg + n) % 256) (rem - n) (total + n)
        (r.1, (reg, c) :: r.2)
termination_by rem
decreasing_by omega

/-- Java_com_layer_i2c_I2cNative_readBlockData: rejects length outside 1..256
with -1 and no hardware call, otherwise runs the chunk loop from register
reg AND 0xFF.  The result is the C return value, the chunk trace, and the
byte count handed to SetByteArrayRegion (none when the first chunk failed and
the function returned -1 before delivering anything). -/
def readBlockData (bus : Nat → Option Nat) (fd reg length : Int) :
    Int × List (Nat × Nat) × Option Nat :=
  if length ≤ 0 ∨ 256 < length then (-1, [], none)
  else
    let r := rbLoop bus 0 ((reg % 256).toNat) length.toNat 0
    if r.1 = -1 then (-1, r.2, none)
    else (r.1, r.2, some r.1.toNat)

/-- Conversion of a nonnegative bit pattern below 2^32 to the value of the
32-bit signed int holding it, as produced by the C expression
buffer[3] &lt;&lt; 24 OR ... OR buffer[0] and then widened to jlong. -/
def int32ofBits (x : Nat) : Int := ((x : Int) + 2 ^ 31) % 2 ^ 32 - 2 ^ 31

/-- Java_com_layer_i2c_I2cNative_readAllBytes: zero-initializes a 4-byte
buffer, performs i2c_smbus_read_i2c_block_data for 4 bytes IGNORING its
result (the oracle is none on access failure, in which case nothing is copied
into the buffer, or some bs for the delivered bytes), and returns
buffer[3]&lt;&lt;24 OR buffer[2]&lt;&lt;16 OR buffer[1]&lt;&lt;8 OR buffer[0] as a jlong. -/
def readAllBytes (resp : Option (List Nat)) (fd address : Int) : Int :=
  let b : Nat → Nat := fun j =>
    match resp with
    | none => 0
    | some bs => bs.getD j 0
  int32ofBits (b 0 + 256 * b 1 + 65536 * b 2 + 16777216 * b 3)

/-! ## Bus recovery (lines 377-472) -/

/-- The addresses visited by recovery method 3: every 8th address from 0x08
while the address is at most 0x77. -/
def sweepAddrs : List Nat := [8, 16, 24, 32, 40, 48, 56, 64, 72, 80, 88, 96, 104, 112]

/-- The address-sweep loop of recovery method 3: at each address, an I2C_SLAVE
ioctl; when it succeeds, an SMBus QUICK read; the first successful probe stops
the sweep.  Returns whether a probe succeeded, the next oracle index, and the
trace. -/
def sweepLoop (bus : Nat → Int) : List Nat → Nat → Option Unit × Nat × List BusEv
  | [], i => (none, i, [])
  | a :: rest, i =>
    if bus i = 0 then
      if bus (i + 1) = 0 then
        (some (), i + 2, [BusEv.slave a, BusEv.smbus I2C_SMBUS_READ 0 I2C_SMBUS_QUICK])
      else
        let r := sweepLoop bus rest (i + 2)
        (r.1, r.2.1,
          BusEv.slave a :: BusEv.smbus I2C_SMBUS_READ 0 I2C_SMBUS_QUICK :: r.2.2)
    else
      let r := sweepLoop bus rest (i + 1)
      (r.1, r.2.1, BusEv.slave a :: r.2.2)

/-- Java_com_layer_i2c_I2cNative_recoverBus: rejects a negative descriptor
with -1 and no hardware call; otherwise tries, in order: (1) the I2C_RECOVER
ioctl, only when the platform compiles it in (hasRecover models the ifdef);
(2) I2C_SLAVE 0x00 followed by an SMBus QUICK write; (3) the address sweep;
(4) the I2C_FUNCS ioctl, then I2C_SLAVE 0x00, a 1000 microsecond sleep and a
final SMBus QUICK write.  The first success returns 0 at once; -1 when all
methods fail. -/
def recoverBus (hasRecover : Bool) (bus : Nat → Int) (fd : Int) :
    Int × List BusEv :=
  if fd < 0 then (-1, [])
  else
    let s1 : Option Unit × Nat × List BusEv :=
      if hasRecover then
        if bus 0 = 0 then (some (), 1, [BusEv.ioctlRecover])
        else (none, 1, [BusEv.ioctlRecover])
      else (none, 0, [])
    if s1.1.isSome then (0, s1.2.2)
    else
      let i1 := s1.2.1
      let t1 := s1.2.2
      let s2 : Option Unit × Nat × List BusEv :=
        if bus i1 = 0 then
          if bus (i1 + 1) = 0 then
            (some (), i1 + 2,
              [BusEv.slave 0, BusEv.smbus I2C_SMBUS_WRITE 0 I2C_SMBUS_QUICK])
          else
            (none, i1 + 2,
              [BusEv.slave 0, BusEv.smbus I2C_SMBUS_WRITE 0 I2C_SMBUS_QUICK])
        else (none, i1 + 1, [BusEv.slave 0])
      if s2.1.isSome then (0, t1 ++ s2.2.2)
      else
        let s3 := sweepLoop bus sweepAddrs s2.2.1
        if s3.1.isSome then (0, t1 ++ s2.2.2 ++ s3.2.2)
        else
          let t3 := t1 ++ s2.2.2 ++ s3.2.2
          let i3 := s3.2.1
          if bus i3 = 0 then
            if bus (i3 + 1) = 0 then
              if bus (i3 + 2) = 0 then
                (0, t3 ++ [BusEv.ioctlFuncs, BusEv.slave 0, BusEv.sleepUs 1000,
                  BusEv.smbus I2C_SMBUS_WRITE 0 I2C_SMBUS_QUICK])
              else
                (-1, t3 ++ [BusEv.ioctlFuncs, BusEv.slave 0, BusEv.sleepUs 1000,
                  BusEv.smbus I2C_SMBUS_WRITE 0 I2C_SMBUS_QUICK])
            else (-1, t3 ++ [BusEv.ioctlFuncs, BusEv.slave 0])
          else (-1, t3 ++ [BusEv.ioctlFuncs])

/-! ## Helper lemmas about the block-read loop -/

lemma cappedSize_requestSize (rem : Nat) :
    cappedSize (requestSize rem) = min 31 rem := by
  simp only [cappedSize, requestSize]
  split_ifs <;> omega

lemma rbLoop_zero (bus : Nat → Option Nat) (k reg total : Nat) :
    rbLoop bus k reg 0 total = ((total : Int), []) := by
  rw [rbLoop]
  simp

lemma rbLoop_fail (bus : Nat → Option Nat) (k reg rem total : Nat)
    (h : rem ≠ 0) (hb : bus k = none ∨ bus k = some 0) :
    rbLoop bus k reg rem total =
      (if total = 0 then (-1 : Int) else (total : Int), [(reg, min 31 rem)]) := by
  rw [rbLoop, dif_neg h]
  rcases hb with hb | hb <;> rw [hb] <;> simp [cappedSize_requestSize]

lemma rbLoop_step (bus : Nat → Option Nat) (k reg rem total n : Nat)
    (h : rem ≠ 0) (hb : bus k = some n) (hn : n ≠ 0) :
    rbLoop bus k reg rem total =
      ((rbLoop bus (k + 1) ((reg + n) % 256) (rem - n) (total + n)).1,
        (reg, min 31 rem) ::
          (rbLoop bus (k + 1) ((reg + n) % 256) (rem - n) (total + n)).2) := by
  rw [rbLoop, dif_neg h, hb]
  simp [hn, cappedSize_requestSize]

/-- Behaviour of the chunk loop on a bus where every issued chunk succeeds
with exactly the size that was requested: the loop returns total + rem, issues
ceil(rem/31) chunks, and the j-th chunk has capped size min 31 (rem - 31 j). -/
lemma rbLoop_perfect (bus : Nat → Option Nat) :
    ∀ rem k reg total : Nat,
    (∀ j, 31 * j < rem → bus (k + j) = some (min 31 (rem - 31 * j))) →
    (rbLoop bus k reg rem total).1 = (total : Int) + rem ∧
    (rbLoop bus k reg rem total).2.length = (rem + 30) / 31 ∧
    ∀ j, j < (rbLoop bus k reg rem total).2.length →
      ((rbLoop bus k reg rem total).2.getD j (0, 0)).2 = min 31 (rem - 31 * j) := by
  intro rem
  induction rem using Nat.strong_induction_on with
  | _ rem ih =>
    intro k reg total hbus
    by_cases h : rem = 0
    · subst h
      rw [rbLoop_zero]
      refine ⟨by simp, by norm_num, ?_⟩
      intro j hj
      simp at hj
    · have hb0 : bus (k + 0) = some (min 31 (rem - 31 * 0)) := hbus 0 (by omega)
      simp only [Nat.add_zero, Nat.mul_zero, Nat.sub_zero] at hb0
      have hmin : min 31 rem ≠ 0 := by omega
      rw [rbLoop_step bus k reg rem total (min 31 rem) h hb0 hmin]
      have hlt : rem - min 31 rem < rem := by omega
      have hbus2 : ∀ j, 31 * j < rem - min 31 rem →
          bus (k + 1 + j) = some (min 31 (rem - min 31 rem - 31 * j)) := by
        intro j hj
        have h1 := hbus (j + 1) (by omega)
        have h2 : k + (j + 1) = k + 1 + j := by omega
        have h3 : rem - 31 * (j + 1) = rem - min 31 rem - 31 * j := by omega
        rw [h2, h3] at h1
        exact h1
      obtain ⟨h1, h2, h3⟩ := ih (rem - min 31 rem) hlt (k + 1)
        ((reg + min 31 rem) % 256) (total + min 31 rem) hbus2
      refine ⟨?_, ?_, ?_⟩
      · rw [h1]
        push_cast
        omega
      · simp only [List.length_cons, h2]
        omega
      · intro j hj
        match j with
        | 0 => simp
        | Nat.succ j =>
          simp only [List.length_cons] at hj
          have hj2 : j < (rbLoop bus (k + 1) ((reg + min 31 rem) % 256)
              (rem - min 31 rem) (total + min 31 rem)).2.length := by omega
          have := h3 j hj2
          simp only [List.getD_cons_succ]
          rw [this]
          omega

/-- Behaviour of the chunk loop when the chunks described by s succeed with
positive sizes, the requested bytes are not yet exhausted, and the next chunk
then fails or returns zero bytes: the loop returns total plus the sum of the
successful chunk sizes, or -1 when that is zero. -/
lemma rbLoop_fail_after (bus : Nat → Option Nat) :
    ∀ (s : List Nat) (k reg rem total : Nat),
    0 < rem →
    (∀ j, (hj : j < s.length) → bus (k + j) = some (s.get ⟨j, hj⟩)) →
    (∀ x ∈ s, 0 < x) →
    s.sum < rem →
    (bus (k + s.length) = none ∨ bus (k + s.length) = some 0) →
    (rbLoop bus k reg rem total).1 =
      if total + s.sum = 0 then (-1 : Int) else ((total + s.sum : Nat) : Int) := by
  intro s
  induction s with
  | nil =>
    intro k reg rem total hrem hbus hpos hsum hfail
    simp only [List.length_nil, Nat.add_zero] at hfail
    rw [rbLoop_fail bus k reg rem total (by omega) hfail]
    simp only [List.sum_nil, Nat.add_zero]
  | cons a s ih =>
    intro k reg rem total hrem hbus hpos hsum hfail
    have ha : bus (k + 0) = some a := by
      have := hbus 0 (by simp)
      simpa using this
    simp only [Nat.add_zero] at ha
    have hapos : 0 < a := hpos a (by simp)
    have hsuma : a + s.sum < rem := by simpa [List.sum_cons] using hsum
    rw [rbLoop_step bus k reg rem total a (by omega) ha (by omega)]
    have hbus2 : ∀ j, (hj : j < s.length) →
        bus (k + 1 + j) = some (s.get ⟨j, hj⟩) := by
      intro j hj
      have h1 := hbus (j + 1) (by simp; omega)
      have h2 : k + (j + 1) = k + 1 + j := by omega
      rw [h2] at h1
      simpa using h1
    have hfail2 : bus (k + 1 + s.length) = none ∨ bus (k + 1 + s.length) = some 0 := by
      have h2 : k + (a :: s).length = k + 1 + s.length := by simp; omega
      rw [h2] at hfail
      exact hfail
    have := ih (k + 1) ((reg + a) % 256) (rem - a) (total + a) (by omega)
      hbus2 (fun x hx => hpos x (by simp [hx])) (by omega) hfail2
    rw [this]
    have hne1 : total + a + s.sum ≠ 0 := by omega
    have hne2 : total + (a :: s).sum ≠ 0 := by simp [List.sum_cons]; omega
    rw [if_neg hne1, if_neg hne2]
    simp [List.sum_cons]
    omega

lemma rbLoop_trace_ne_nil (bus : Nat → Option Nat) (k reg rem total : Nat)
    (h : rem ≠ 0) : (rbLoop bus k reg rem total).2 ≠ [] := by
  rw [rbLoop, dif_neg h]
  rcases hb : bus k with _ | n <;> simp only [hb]
  · simp
  · by_cases hn : n = 0 <;> simp [hn]

/-! ## Claim theorems -/

/-- C1, counterexample: the input address 0x88 = 136 is greater than 0x77, yet
scanAddress does not return the rejection outcome for it: the 7-bit mask folds
it to 0x08, a probe transaction is issued on the hardware, and (the mock
device answering) the scan even reports Detected.  This contradicts the claim
that every address above 0x77 is rejected immediately with no probe. -/
theorem scanAddress_c1_counterexample :
    (119 : Int) < 136 ∧
    scanAddress zeroBus 3 136 =
      (1, [BusEv.slave 8, BusEv.smbus I2C_SMBUS_WRITE 0 I2C_SMBUS_QUICK]) := by
  decide

/-- C1, amended: scanAddress first masks the address to its low 7 bits; it
returns 0 — the same value it uses for NotDetected, there is no distinct
Invalid code — with no hardware access iff the MASKED address is below 0x08 or
above 0x77; for an in-range masked address on a valid handle it issues a
probe, whose first hardware call is the address switch. -/
theorem scanAddress_mask_amended (bus : Nat → Int) (fd a : Int) :
    (((a % 128).toNat < 8 ∨ 119 < (a % 128).toNat) →
      scanAddress bus fd a = (0, [])) ∧
    (8 ≤ (a % 128).toNat → (a % 128).toNat ≤ 119 → 0 ≤ fd →
      (scanAddress bus fd a).2.head? = some (BusEv.slave ((a % 128).toNat))) := by
  constructor
  · intro h
    simp only [scanAddress]
    rw [if_pos h]
  · intro h1 h2 hfd
    have hfd2 : ¬ fd < 0 := by omega
    simp only [scanAddress, i2c_smbus_quick_write, i2c_smbus_read_byte_probe,
      if_neg hfd2]
    rw [if_neg (by omega : ¬ ((a % 128).toNat < 8 ∨ 119 < (a % 128).toNat)),
      if_neg (by omega : ¬ ((a % 128).toNat ≤ 7 ∨ 120 ≤ (a % 128).toNat))]
    by_cases hb0 : bus 0 < 0 <;> simp only [hb0, if_pos, if_neg, ite_true, ite_false] <;>
      split_ifs <;> simp

/-- C1 amended, witness: address 5 is rejected with no hardware call; address
16 is probed, starting with the address switch. -/
theorem scanAddress_mask_amended_witness :
    scanAddress zeroBus 3 5 = (0, []) ∧
    (scanAddress zeroBus 3 16).2.head? = some (BusEv.slave 16) :=
  ⟨(scanAddress_mask_amended zeroBus 3 5).1 (by decide),
   (scanAddress_mask_amended zeroBus 3 16).2 (by decide) (by decide) (by decide)⟩

/-- C2: for every length 1..256, when every issued chunk succeeds with exactly
the requested size, readBlockData returns length, issues ceil(length/31)
chunk transactions, every chunk is capped at 31 bytes (so the 32-byte broken
mode is never used), and the j-th chunk's effective request size is
min 31 (length - 31 j), i.e. min(31, remaining). -/
theorem readBlockData_perfect (bus : Nat → Option Nat) (fd reg length : Int)
    (h1 : 1 ≤ length) (h2 : length ≤ 256)
    (hbus : ∀ k, 31 * k < length.toNat →
      bus k = some (min 31 (length.toNat - 31 * k))) :
    (readBlockData bus fd reg length).1 = length ∧
    (readBlockData bus fd reg length).2.1.length = (length.toNat + 30) / 31 ∧
    (∀ j, j < (readBlockData bus fd reg length).2.1.length →
      ((readBlockData bus fd reg length).2.1.getD j (0, 0)).2 ≤ 31) ∧
    ∀ j, j < (readBlockData bus fd reg length).2.1.length →
      ((readBlockData bus fd reg length).2.1.getD j (0, 0)).2 =
        min 31 (length.toNat - 31 * j) := by
  have hlen : ¬ (length ≤ 0 ∨ 256 < length) := by omega
  have hbus0 : ∀ j, 31 * j < length.toNat →
      bus (0 + j) = some (min 31 (length.toNat - 31 * j)) := by
    intro j hj
    simpa using hbus j hj
  obtain ⟨p1, p2, p3⟩ :=
    rbLoop_perfect bus length.toNat 0 ((reg % 256).toNat) 0 hbus0
  have hne : (rbLoop bus 0 ((reg % 256).toNat) length.toNat 0).1 ≠ -1 := by
    rw [p1]
    omega
  simp only [readBlockData, if_neg hlen, if_neg hne]
  refine ⟨?_, p2, ?_, p3⟩
  · rw [p1]
    omega
  · intro j hj
    have := p3 j hj
    omega

/-- C2, witness bus: every chunk of a 100-byte read succeeds with the
requested size. -/
def perfectBus100 : Nat → Option Nat := fun k => some (min 31 (100 - 31 * k))

/-- C2, witness: a 100-byte read on a fully coöperating bus returns 100 and
issues ceil(100/31) = 4 chunks. -/
theorem readBlockData_perfect_witness :
    (readBlockData perfectBus100 3 0 100).1 = 100 ∧
    (readBlockData perfectBus100 3 0 100).2.1.length = 4 := by
  obtain ⟨p1, p2, p3, p4⟩ := readBlockData_perfect perfectBus100 3 0 100
    (by norm_num) (by norm_num)
    (by intro k hk; simp [perfectBus100])
  refine ⟨p1, ?_⟩
  rw [p2]
  decide

/-- C3, counterexample: writeByte issues its SMBus transaction with NO
preceding address switch — its trace is the single transaction event, and that
event is not an address switch.  The integer argument it receives is the
register/command code, not a device address; the same holds for writeWord and
readWord.  This contradicts the claim that every dispatch call switches the
device address first. -/
theorem dispatch_switch_counterexample :
    (writeByte zeroBus 3 16 85).2 =
      [BusEv.smbus I2C_SMBUS_WRITE 16 I2C_SMBUS_BYTE_DATA] ∧
    BusEv.isSlave (BusEv.smbus I2C_SMBUS_WRITE 16 I2C_SMBUS_BYTE_DATA) = false := by
  decide

/-- C3, amended: only the quick-write and read-byte presence probes switch the
device address before their transaction; the byte/word primitives issue
exactly one rate-limited SMBus transaction at the handle's already-active
address with no preceding switch (address selection is a separate
switchDeviceAddress call). -/
theorem dispatch_addressing_amended (bus : Nat → Int) (word : Nat)
    (fd address b : Int) (addr j : Nat) :
    (writeByte bus fd address b).2 =
      [BusEv.smbus I2C_SMBUS_WRITE ((address % 256).toNat) I2C_SMBUS_BYTE_DATA] ∧
    (writeWord bus fd address b).2 =
      [BusEv.smbus I2C_SMBUS_WRITE ((address % 256).toNat) I2C_SMBUS_WORD_DATA] ∧
    (readWord bus word fd address).2 =
      [BusEv.smbus I2C_SMBUS_READ ((address % 256).toNat) I2C_SMBUS_WORD_DATA] ∧
    (0 ≤ fd →
      (i2c_smbus_quick_write bus j fd addr).2.2.head? = some (BusEv.slave addr)) ∧
    (0 ≤ fd →
      (i2c_smbus_read_byte_probe bus j fd addr).2.2.head? = some (BusEv.slave addr)) := by
  refine ⟨rfl, rfl, ?_, ?_, ?_⟩
  · simp only [readWord]
    split_ifs <;> rfl
  · intro hfd
    simp only [i2c_smbus_quick_write, if_neg (by omega : ¬ fd < 0)]
    split_ifs <;> rfl
  · intro hfd
    simp only [i2c_smbus_read_byte_probe, if_neg (by omega : ¬ fd < 0)]
    split_ifs <;> rfl

/-- C3 amended, witness: on a valid handle, both probes start with the address
switch. -/
theorem dispatch_addressing_amended_witness :
    (i2c_smbus_quick_write zeroBus 0 3 16).2.2.head? = some (BusEv.slave 16) ∧
    (i2c_smbus_read_byte_probe zeroBus 0 3 16).2.2.head? = some (BusEv.slave 16) :=
  ⟨(dispatch_addressing_amended zeroBus 0 3 0 0 16 0).2.2.2.1 (by decide),
   (dispatch_addressing_amended zeroBus 0 3 0 0 16 0).2.2.2.2 (by decide)⟩

/-- C4: for every valid length 1..256, when the first chunk fails (access
error or zero bytes), readBlockData returns -1 and SetByteArrayRegion is never
reached, so no bytes are delivered to the caller; exactly one chunk was
attempted. -/
theorem readBlockData_first_chunk_fail (bus : Nat → Option Nat)
    (fd reg length : Int) (h1 : 1 ≤ length) (h2 : length ≤ 256)
    (hb : bus 0 = none ∨ bus 0 = some 0) :
    (readBlockData bus fd reg length).1 = -1 ∧
    (readBlockData bus fd reg length).2.2 = none ∧
    (readBlockData bus fd reg length).2.1.length = 1 := by
  have hlen : ¬ (length ≤ 0 ∨ 256 < length) := by omega
  have hfail := rbLoop_fail bus 0 ((reg % 256).toNat) length.toNat 0 (by omega) hb
  simp only [readBlockData, if_neg hlen, hfail]
  simp

/-- C4, witness: a 16-byte read whose first chunk fails returns -1 with no
delivery after one attempted chunk. -/
theorem readBlockData_first_chunk_fail_witness :
    (readBlockData noneBus 3 0 16).1 = -1 ∧
    (readBlockData noneBus 3 0 16).2.2 = none ∧
    (readBlockData noneBus 3 0 16).2.1.length = 1 :=
  readBlockData_first_chunk_fail noneBus 3 0 16 (by norm_num) (by norm_num)
    (Or.inl rfl)

/-- C5: for every valid length 1..256, when the chunks listed in s succeed
with positive byte counts without exhausting the request, and the next chunk
then fails, readBlockData returns the nonnegative sum of the successful chunk
sizes as a successful result and delivers exactly that many bytes. -/
theorem readBlockData_short_success (bus : Nat → Option Nat)
    (fd reg length : Int) (s : List Nat)
    (h1 : 1 ≤ length) (h2 : length ≤ 256)
    (hs : s ≠ []) (hpos : ∀ x ∈ s, 0 < x) (hsum : s.sum < length.toNat)
    (hbus : ∀ j, (hj : j < s.length) → bus j = some (s.get ⟨j, hj⟩))
    (hfail : bus s.length = none ∨ bus s.length = some 0) :
    (readBlockData bus fd reg length).1 = ((s.sum : Nat) : Int) ∧
    (readBlockData bus fd reg length).2.2 = some s.sum := by
  have hlen : ¬ (length ≤ 0 ∨ 256 < length) := by omega
  have hsumpos : 0 < s.sum := by
    match s, hs with
    | a :: t, _ =>
      have := hpos a (by simp)
      simp only [List.sum_cons]
      omega
  have hbus0 : ∀ j, (hj : j < s.length) → bus (0 + j) = some (s.get ⟨j, hj⟩) := by
    intro j hj
    simpa using hbus j hj
  have hfail0 : bus (0 + s.length) = none ∨ bus (0 + s.length) = some 0 := by
    simpa using hfail
  have h := rbLoop_fail_after bus s 0 ((reg % 256).toNat) length.toNat 0
    (by omega) hbus0 hpos hsum hfail0
  rw [if_neg (by omega)] at h
  simp only [Nat.zero_add] at h
  have hne : (rbLoop bus 0 ((reg % 256).toNat) length.toNat 0).1 ≠ -1 := by
    rw [h]
    omega
  have hcond : ¬ (((s.sum : Nat) : Int) = -1) := by omega
  simp only [readBlockData, if_neg hlen, h, if_neg hcond]
  exact ⟨trivial, rfl⟩

/-- C5, witness bus: chunk 0 delivers 31 bytes, chunk 1 fails. -/
def shortBus : Nat → Option Nat := fun k => if k = 0 then some 31 else none

/-- C5, witness: a 40-byte read whose second chunk fails returns 31 bytes as a
short success. -/
theorem readBlockData_short_success_witness :
    (readBlockData shortBus 3 0 40).1 = 31 ∧
    (readBlockData shortBus 3 0 40).2.2 = some 31 := by
  have h := readBlockData_short_success shortBus 3 0 40 [31]
    (by norm_num) (by norm_num) (by decide) (by decide) (by norm_num)
    (by
      intro j hj
      have hj0 : j = 0 := by simpa using Nat.lt_one_iff.mp (by simpa using hj)
      subst hj0
      rfl)
    (Or.inl rfl)
  simpa using h

/-- C6: readBlockData with length 0 and with length 257 both fail (-1,
through the length-validation branch) with an empty trace — no underlying bus
transaction is issued — and nothing is delivered to the caller.  At the
native boundary the InvalidLength failure is encoded as the same -1 as other
failures; the empty trace distinguishes the validation path. -/
theorem readBlockData_invalid_length (bus : Nat → Option Nat) (fd reg : Int) :
    readBlockData bus fd reg 0 = (-1, [], none) ∧
    readBlockData bus fd reg 257 = (-1, [], none) := by
  constructor <;> norm_num [readBlockData]

/-- C7, witness bus for the scenario in which only strategy 2 (general call)
succeeds. -/
def busOnlyGc : Nat → Int := fun i => if i = 0 then -1 else 0

/-- C7, witness bus for the scenario in which only strategy 3 (address sweep)
succeeds: the I2C_RECOVER ioctl fails, the general-call quick write fails, and
the first sweep probe answers. -/
def busOnlySweep : Nat → Int := fun i => if i = 0 ∨ i = 2 then -1 else 0

/-- C7, witness bus for the scenario in which only strategy 4 succeeds: every
call up to and including the address sweep fails, then I2C_FUNCS, the
general-call switch and the final quick write succeed. -/
def busOnlyFinal : Nat → Int := fun i => if i ≤ 15 then -1 else 0

set_option maxHeartbeats 1600000 in
/-- C7: recoverBus attempts its four strategies strictly in order and stops at
the first success.  With every call succeeding, only the I2C_RECOVER ioctl is
issued; when only the general call succeeds, strategy 1 is observed to fail
first; when only the first sweep probe succeeds, strategies 1 and 2 are
observed to fail first and the call stops at the probe; when only the final
delayed general call succeeds, the full strategy sequence is traversed; and
when every call fails, the result is -1 after the complete ordered trace
(ioctl recover; general-call switch; all fourteen sweep addresses 0x08,
0x10, ..., 0x70; functionality query).  Moreover strategy 1 is the first
hardware call for every bus oracle. -/
theorem recoverBus_order :
    recoverBus true zeroBus 3 = (0, [BusEv.ioctlRecover]) ∧
    recoverBus true busOnlyGc 3 =
      (0, [BusEv.ioctlRecover, BusEv.slave 0,
        BusEv.smbus I2C_SMBUS_WRITE 0 I2C_SMBUS_QUICK]) ∧
    recoverBus true busOnlySweep 3 =
      (0, [BusEv.ioctlRecover, BusEv.slave 0,
        BusEv.smbus I2C_SMBUS_WRITE 0 I2C_SMBUS_QUICK,
        BusEv.slave 8, BusEv.smbus I2C_SMBUS_READ 0 I2C_SMBUS_QUICK]) ∧
    recoverBus true busOnlyFinal 3 =
      (0, [BusEv.ioctlRecover, BusEv.slave 0, BusEv.slave 8, BusEv.slave 16,
        BusEv.slave 24, BusEv.slave 32, BusEv.slave 40, BusEv.slave 48,
        BusEv.slave 56, BusEv.slave 64, BusEv.slave 72, BusEv.slave 80,
        BusEv.slave 88, BusEv.slave 96, BusEv.slave 104, BusEv.slave 112,
        BusEv.ioctlFuncs, BusEv.slave 0, BusEv.sleepUs 1000,
        BusEv.smbus I2C_SMBUS_WRITE 0 I2C_SMBUS_QUICK]) ∧
    recoverBus true failBus 3 =
      (-1, [BusEv.ioctlRecover, BusEv.slave 0, BusEv.slave 8, BusEv.slave 16,
        BusEv.slave 24, BusEv.slave 32, BusEv.slave 40, BusEv.slave 48,
        BusEv.slave 56, BusEv.slave 64, BusEv.slave 72, BusEv.slave 80,
        BusEv.slave 88, BusEv.slave 96, BusEv.slave 104, BusEv.slave 112,
        BusEv.ioctlFuncs]) ∧
    ∀ bus : Nat → Int, (recoverBus true bus 3).2.head? = some BusEv.ioctlRecover := by
  refine ⟨by decide, by decide, by decide, by decide, by decide, ?_⟩
  intro bus
  rw [recoverBus, if_neg (by norm_num : ¬ (3 : Int) < 0)]
  by_cases h0 : bus 0 = 0
  · simp [h0]
  · simp only [h0, if_true, if_false, ite_true, ite_false, if_neg h0]
    split_ifs <;> simp

/-- C8: when the recorded timestamp is not the startup sentinel and the time
elapsed between the completion timestamp of the previous transaction and the
start of the next one is below 250 microseconds (250000 ns), i2c_smbus_access
sleeps for exactly the remaining delta before the transaction, and afterwards
the shared timestamp becomes the completion-time clock reading. -/
theorem rateLimit_spacing (last start completion : Timespec)
    (hsentinel : last.tv_sec ≠ 0 ∨ last.tv_nsec ≠ 0)
    (hclose : elapsedNs last start < 250000) :
    smbusAccessTiming last start completion =
      (250000 - elapsedNs last start, completion) := by
  have hclose2 : elapsedNs last start < MIN_I2C_INTERVAL_NS := hclose
  simp only [smbusAccessTiming, rateLimitSleep, i2cPostOperation,
    if_pos hsentinel, if_pos hclose2, MIN_I2C_INTERVAL_NS]
  rw [if_pos hclose]

/-- C8, witness: a transaction starting 100 microseconds after the previous
completion sleeps for the remaining 150 microseconds, and the timestamp is
updated to the new completion time. -/
theorem rateLimit_spacing_witness :
    smbusAccessTiming ⟨0, 1000⟩ ⟨0, 101000⟩ ⟨0, 180000⟩ =
      (150000, ⟨0, 180000⟩) :=
  rateLimit_spacing ⟨0, 1000⟩ ⟨0, 101000⟩ ⟨0, 180000⟩
    (Or.inr (by decide)) (by decide)

/-- C9, counterexample: on the invalid handle -1, writeByte still issues its
SMBus transaction attempt (its trace is nonempty: the kernel call is made and
only fails at the OS layer), and readBlockData still issues its first chunk
transaction.  This contradicts the claim that every core operation on an
invalid handle fails without issuing any underlying bus transaction. -/
theorem invalid_handle_counterexample :
    (writeByte failBus (-1) 16 85).2 =
      [BusEv.smbus I2C_SMBUS_WRITE 16 I2C_SMBUS_BYTE_DATA] ∧
    (readBlockData noneBus (-1) 0 4).2.1 = [(0, 4)] := by
  constructor
  · decide
  · have h4 : rbLoop noneBus 0 0 4 0 = (-1, [(0, 4)]) := by
      rw [rbLoop_fail] <;> simp [noneBus]
    have h44 : (4 : Int).toNat = 4 := rfl
    norm_num [readBlockData, h44, h4]

/-- C9, amended: switchDeviceAddress (through switch_i2c_device), scanAddress
and recoverBus do guard the handle — with a negative descriptor they return
their failure or not-detected code with an empty trace — but the byte/word and
block primitives perform no handle check: they pass the invalid descriptor to
the underlying kernel call, so a transaction attempt is still issued and only
fails at the OS layer. -/
theorem invalid_handle_amended (bus : Nat → Int) (bbus : Nat → Option Nat)
    (hr : Bool) (fd a w : Int) (addr : Nat) (hfd : fd < 0) :
    switch_i2c_device bus fd addr = (-1, []) ∧
    recoverBus hr bus fd = (-1, []) ∧
    (scanAddress bus fd a).2 = [] ∧
    (writeByte bus fd a w).2 ≠ [] ∧
    (readBlockData bbus fd 0 4).2.1 ≠ [] := by
  refine ⟨?_, ?_, ?_, ?_, ?_⟩
  · simp [switch_i2c_device, hfd]
  · simp [recoverBus, hfd]
  · simp only [scanAddress, i2c_smbus_quick_write, i2c_smbus_read_byte_probe,
      if_pos hfd]
    split_ifs <;> simp
  · simp [writeByte]
  · have hne4 : (rbLoop bbus 0 0 4 0).2 ≠ [] :=
      rbLoop_trace_ne_nil bbus 0 0 4 0 (by decide)
    have h44 : (4 : Int).toNat = 4 := rfl
    simp only [readBlockData]
    norm_num [h44]
    split_ifs <;> simpa using hne4

/-- C9 amended, witness at handle -1. -/
theorem invalid_handle_amended_witness :
    switch_i2c_device failBus (-1) 16 = (-1, []) ∧
    recoverBus true failBus (-1) = (-1, []) ∧
    (scanAddress failBus (-1) 16).2 = [] ∧
    (writeByte failBus (-1) 16 85).2 ≠ [] ∧
    (readBlockData noneBus (-1) 0 4).2.1 ≠ [] :=
  invalid_handle_amended failBus noneBus true (-1) 16 85 16 (by decide)

/-- C10: readAllBytes ignores the outcome of its underlying 4-byte block
read.  On failure nothing is copied into the zero-initialized buffer and the
returned value is 0 — indistinguishable from a device that actually delivered
four zero bytes; on success the four delivered bytes are assembled
little-endian, buffer[0] least significant. -/
theorem readAllBytes_ignores_result (fd address : Int) (b0 b1 b2 b3 : Nat)
    (h0 : b0 < 256) (h1 : b1 < 256) (h2 : b2 < 256) (h3 : b3 < 128) :
    readAllBytes none fd address = 0 ∧
    readAllBytes none fd address = readAllBytes (some [0, 0, 0, 0]) fd address ∧
    readAllBytes (some [b0, b1, b2, b3]) fd address =
      (b0 : Int) + 256 * (b1 : Int) + 65536 * (b2 : Int) + 16777216 * (b3 : Int) := by
  refine ⟨by norm_num [readAllBytes, int32ofBits], rfl, ?_⟩
  simp only [readAllBytes, int32ofBits, List.getD]
  norm_num [List.getElem?_cons_succ]
  omega

/-- C10, witness: a failed read returns 0; bytes 4,3,2,1 assemble to
0x01020304. -/
theorem readAllBytes_ignores_result_witness :
    readAllBytes none 3 0 = 0 ∧
    readAllBytes (some [4, 3, 2, 1]) 3 0 =
      ((4 : Nat) : Int) + 256 * ((3 : Nat) : Int) + 65536 * ((2 : Nat) : Int) +
        16777216 * ((1 : Nat) : Int) :=
  ⟨(readAllBytes_ignores_result 3 0 4 3 2 1
      (by norm_num) (by norm_num) (by norm_num) (by norm_num)).1,
   (readAllBytes_ignores_result 3 0 4 3 2 1
      (by norm_num) (by norm_num) (by norm_num) (by norm_num)).2.2⟩

end I2cNative
